import Mathlib

set_option maxRecDepth 16384

/-!
Verification development for the procurement-data proxy handler
(`api/pps.js`).  The definitions below are a shallow embedding of the
JavaScript source: JSON values are modelled by the inductive `Json`
(with a distinguished `undef` for JavaScript's `undefined`), and each
helper function of the handler is translated one-to-one.  Machine
numbers reachable in the handler are integers and decimal literals, so
numeric values are modelled exactly as an integer part plus a decimal
fraction; IEEE floating point rounding is not modelled (no claim
depends on it).  String case-folding follows the ASCII fragment of
`toLowerCase`, and `trim` follows the ASCII whitespace fragment, which
covers every string the claims mention.
-/

/-- JavaScript values as they occur in the handler: JSON trees plus
`undefined`.  Numbers that appear as JSON fields are integers in the
upstream feed, so `num` carries an `Int`.  `arrObj` is an array value
that has additionally been given named (expando) properties — property
assignment on an array succeeds in JavaScript, and the merge step does
exactly that when the upstream envelope carries its item list as a
bare array; `Array.isArray` is still true of such a value.  Parsing
JSON never produces `arrObj`; only property assignment does. -/
inductive Json where
  | undef : Json
  | null : Json
  | bool : Bool → Json
  | num : Int → Json
  | str : String → Json
  | arr : List Json → Json
  | arrObj : List Json → List (String × Json) → Json
  | obj : List (String × Json) → Json

/-- JavaScript truthiness of a value (`!v` is its negation). -/
def truthy : Json → Bool
  | Json.undef => false
  | .null => false
  | .bool b => b
  | .num n => n != 0
  | .str s => s != ""
  | .arr _ => true
  | .arrObj _ _ => true
  | .obj _ => true

/-- `v == null`/`v == undefined`, the test used by `??` and `?.`. -/
def isNullish : Json → Bool
  | Json.undef => true
  | .null => true
  | _ => false

/-- `a || b`: first truthy operand. -/
def jsOr (a b : Json) : Json := if truthy a then a else b

/-- `a ?? b`: nullish coalescing. -/
def jsNullish (a b : Json) : Json := if isNullish a then b else a

/-- Property read `v[k]` (and `v?.k`): `undefined` on anything that is
not an object carrying the key. -/
def jsGet (v : Json) (k : String) : Json :=
  match v with
  | .obj fields => ((fields.find? (fun p => p.1 == k)).map (fun p => p.2)).getD Json.undef
  | .arrObj _ fields => ((fields.find? (fun p => p.1 == k)).map (fun p => p.2)).getD Json.undef
  | _ => Json.undef

/-- Chained optional access `v?.k1?.k2...`. -/
def getPath (v : Json) (ks : List String) : Json := ks.foldl jsGet v

/-- Is the value an array (`Array.isArray`)? -/
def isArr : Json → Bool
  | .arr _ => true
  | .arrObj _ _ => true
  | _ => false

mutual
/-- `String(v)` coercion for the values reachable in the handler. -/
def jsToString : Json → String
  | Json.undef => "undefined"
  | .null => "null"
  | .bool true => "true"
  | .bool false => "false"
  | .num n => toString n
  | .str s => s
  | .arr xs => String.intercalate "," (jsToStringArr xs)
  | .arrObj xs _ => String.intercalate "," (jsToStringArr xs)
  | .obj _ => "[object Object]"

/-- Element-wise `String` coercion inside `Array.prototype.toString`
(`null`/`undefined` elements print as the empty string). -/
def jsToStringArr : List Json → List String
  | [] => []
  | x :: xs =>
    (match x with
     | .null => ""
     | Json.undef => ""
     | v => jsToString v) :: jsToStringArr xs
end

/-- `s.toLowerCase()` (ASCII fragment; the claims use ASCII and Hangul,
and Hangul has no case). -/
def jsToLower (s : String) : String := String.mk (s.data.map Char.toLower)

/-- `s.trim()` (ASCII whitespace fragment): drop whitespace from both
ends. -/
def jsTrim (s : String) : String :=
  String.mk (((s.data.dropWhile Char.isWhitespace).reverse.dropWhile Char.isWhitespace).reverse)

/-- `s.slice(0, n)` on strings: the first `n` characters. -/
def strTake (s : String) (n : Nat) : String := String.mk (s.data.take n)

/-- `s.includes(sub)`: substring test. -/
def strIncludes (s sub : String) : Bool := decide (sub.data <:+: s.data)

/-- `s.padStart(2, "0")`. -/
def padStart2 (s : String) : String :=
  if s.length ≥ 2 then s else String.mk (List.replicate (2 - s.length) '0') ++ s

/-- The characters `encodeURIComponent` leaves unescaped. -/
def uriUnreserved (c : Char) : Bool :=
  c.isAlphanum || c == '-' || c == '_' || c == '.' || c == '!' ||
  c == '~' || c == '*' || c == '\'' || c == '(' || c == ')'

/-- UTF-8 bytes of a code point. -/
def utf8Bytes (c : Char) : List Nat :=
  let n := c.toNat
  if n < 0x80 then [n]
  else if n < 0x800 then [0xC0 + n / 64, 0x80 + n % 64]
  else if n < 0x10000 then [0xE0 + n / 4096, 0x80 + (n / 64) % 64, 0x80 + n % 64]
  else [0xF0 + n / 262144, 0x80 + (n / 4096) % 64, 0x80 + (n / 64) % 64, 0x80 + n % 64]

/-- Upper-case hex digit. -/
def hexDigit (n : Nat) : Char :=
  if n < 10 then Char.ofNat ('0'.toNat + n) else Char.ofNat ('A'.toNat + n - 10)

/-- `%XX` escape of one byte. -/
def pctByte (b : Nat) : String :=
  String.mk ['%', hexDigit (b / 16), hexDigit (b % 16)]

/-- `encodeURIComponent(s)`. -/
def encodeURIComponent (s : String) : String :=
  s.data.foldl
    (fun acc c =>
      if uriUnreserved c then acc.push c
      else acc ++ String.join ((utf8Bytes c).map pctByte))
    ""

/-- A parsed decimal number `intPart + frac / 10 ^ fracLen`.  The
handler only ever parses digit/dot strings and integer JSON numbers,
so this exact representation captures `Number(...)` on every reachable
input; `none` stands for `NaN`. -/
abbrev DecNum := Int × Nat × Nat

/-- `Number(s)` for a string of digits and dots (the shape produced by
the amount stripper, and the numeric strings of the upstream feed):
at most one dot, `""` parses to `0`, `"."` is `NaN`. -/
def parseDigitsDots (s : String) : Option DecNum :=
  match (s.data.splitOn '.').map String.mk with
  | [a] => if a = "" then some (0, 0, 0) else some ((digitsToNat a : Int), 0, 0)
  | [a, b] =>
    if a = "" && b = "" then none
    else some ((digitsToNat a : Int), digitsToNat b, b.length)
  | _ => none
where
  digitsToNat (t : String) : Nat :=
    t.data.foldl (fun acc c => 10 * acc + (c.toNat - '0'.toNat)) 0

/-- `Number(v)` on the values the handler feeds to it.  String inputs
beyond trimmed digit/dot literals (signs, exponents, hex) do not occur
in the handler's data and are mapped to `NaN`. -/
def jsToNumber (v : Json) : Option DecNum :=
  match v with
  | Json.undef => none
  | .null => some (0, 0, 0)
  | .bool b => some (if b then 1 else 0, 0, 0)
  | .num n => some (n, 0, 0)
  | .str s =>
    let t := jsTrim s
    if t = "" then some (0, 0, 0)
    else if t.data.all (fun c => c.isDigit || c == '.') then parseDigitsDots t
    else none
  | .arr _ => none
  | .arrObj _ _ => none
  | .obj _ => none

/-- `Math.floor` of a parsed number.  Every reachable fractional value
is non-negative (digit strings), so the floor is the integer part. -/
def decFloor (d : DecNum) : Int := d.1

/-- `toInt(v, def)` from the source: `Number(v)` floored, or the
default when not finite. -/
def toInt (v : Json) (d : Int) : Int :=
  match jsToNumber v with
  | none => d
  | some x => decFloor x

/-- `clampInt(v, def, min, max)` from the source. -/
def clampInt (v : Json) (d mn mx : Int) : Int :=
  let x := match jsToNumber v with
    | none => d
    | some n => decFloor n
  min mx (max mn x)

/-- `list.slice(0, e)` (the handler's output cap); a negative end
index counts from the end of the list. -/
def jsSliceTo {α : Type} (l : List α) (e : Int) : List α :=
  if 0 ≤ e then l.take e.toNat else l.take (l.length - (-e).toNat)

/-! ## Pagination (`decidePagesToFetch`, `PagedFetcher` arithmetic) -/

/-- `decidePagesToFetch({totalCount, numOfRows, pageNo, maxPages})`
from the source.  `Math.ceil(totalCount / numOfRows)` on positive
integers is `(totalCount + numOfRows - 1) / numOfRows` in integer
(Euclidean) division. -/
def decidePagesToFetch (totalCount numOfRows pageNo maxPages : Int) : Int :=
  if totalCount ≤ 0 then maxPages
  else
    let totalPages := (totalCount + numOfRows - 1) / numOfRows
    let remain := totalPages - (pageNo - 1)
    max 1 (min maxPages remain)

/-! ## KST date window (`getNowKstDate`, `fmtYmd`) -/

/-- `getNowKstDate()`: the current instant shifted by +9 hours, in
milliseconds since the epoch. -/
def getNowKstDate (nowMs : Int) : Int := nowMs + 9 * 60 * 60 * 1000

/-- The kind-specific lookback: `kind === "award" ? 6 : 29`. -/
def daysBackOf (kind : String) : Int := if kind = "award" then 6 else 29

/-- `fromKst`: the window start instant. -/
def fromKstMs (nowMs : Int) (kind : String) : Int :=
  getNowKstDate nowMs - daysBackOf kind * 24 * 60 * 60 * 1000

/-- The civil day index a `Date`'s UTC calendar fields are read from
(floor division because the epoch day boundary is a floor for every
sign of the timestamp). -/
def dayIndex (ms : Int) : Int := ms / 86400000

/-- Proleptic Gregorian `(year, month, day)` of a civil day index,
the arithmetic behind `getUTCFullYear/getUTCMonth/getUTCDate`. -/
def civilFromDays (z0 : Int) : Int × Int × Int :=
  let z := z0 + 719468
  let era := z / 146097
  let doe := z - era * 146097
  let yoe := (doe - doe / 1460 + doe / 36524 - doe / 146096) / 365
  let y := yoe + era * 400
  let doy := doe - (365 * yoe + yoe / 4 - yoe / 100)
  let mp := (5 * doy + 2) / 153
  let d := doy - (153 * mp + 2) / 5 + 1
  let m := mp + (if mp < 10 then 3 else -9)
  (y + (if m ≤ 2 then 1 else 0), m, d)

/-- `pad2(n)` from the source. -/
def pad2 (n : Int) : String := padStart2 (toString n)

/-- `YYYYMMDD` rendering of a civil day index. -/
def ymdOfDayIndex (z : Int) : String :=
  let c := civilFromDays z
  toString c.1 ++ pad2 c.2.1 ++ pad2 c.2.2

/-- `fmtYmd(d)` from the source: the UTC calendar date of the
timestamp, rendered `YYYYMMDD`. -/
def fmtYmd (ms : Int) : String := ymdOfDayIndex (dayIndex ms)

/-! ## Kind normalization and endpoints -/

/-- The membership test and default of `normalizeKind`, on the
already-folded string `k`. -/
def normKindStr (k : String) : String :=
  if k = "bid" || k = "award" || k = "contract" then k else "bid"

/-- `normalizeKind(v)` from the source. -/
def normalizeKind (v : Json) : String :=
  normKindStr (jsTrim (jsToLower (jsToString (jsOr v (Json.str "bid")))))

/-- `endpointByKind[kind]`: the upstream endpoint table. -/
def endpointByKind (kind : String) : Option String :=
  let base := "https://apis.data.go.kr/1230000/ao/PubDataOpnStdService"
  if kind = "bid" then some (base ++ "/getDataSetOpnStdBidPblancInfo")
  else if kind = "award" then some (base ++ "/getDataSetOpnStdScsbidInfo")
  else if kind = "contract" then some (base ++ "/getDataSetOpnStdCntrctInfo")
  else none

/-! ## Envelope normalization (`pickItems`, `mergeResponses`) -/

/-- `pickItems(raw)` from the source: try the candidate nesting paths
in order, coerce a single object to a one-element list (dropping a
falsy scalar), and unwrap one spurious `{item: [...]}` container. -/
def pickItems (raw : Json) : List Json :=
  let list :=
    jsNullish (getPath raw ["response", "body", "items", "item"])
      (jsNullish (getPath raw ["response", "body", "items"])
        (jsNullish (getPath raw ["items", "item"])
          (jsNullish (getPath raw ["items"]) (Json.arr []))))
  let lst :=
    match list with
    | .arr xs => xs
    | .arrObj xs _ => xs
    | v => if truthy v then [v] else []
  match lst with
  | [x] =>
    if truthy x then
      match jsGet x "item" with
      | .arr ys => ys
      | .arrObj ys _ => ys
      | _ => [x]
    else [x]
  | other => other

/-- Functional update of one object field (insert-or-replace, keeping
the field's position, as JavaScript assignment does). -/
def setField : List (String × Json) → String → Json → List (String × Json)
  | [], k, v => [(k, v)]
  | (k', v') :: fs, k, v =>
    if k' = k then (k, v) :: fs else (k', v') :: setField fs k v

/-- `o.k = v`: property assignment.  Objects get the field inserted or
replaced in place; an array gains (or updates) a named expando
property while keeping its elements, as JavaScript arrays do; `none`
models the strict-mode `TypeError` raised when the target is a
primitive, `null` or `undefined`. -/
def jsSetProp (o : Json) (k : String) (v : Json) : Option Json :=
  match o with
  | .obj fs => some (.obj (setField fs k v))
  | .arr xs => some (.arrObj xs [(k, v)])
  | .arrObj xs fs => some (.arrObj xs (setField fs k v))
  | _ => none

/-- `m.k1.k2 = v`: read `m.k1`, assign the property on it, and put the
updated child back (the functional rendering of JavaScript's in-place
mutation — sound because the merge operates on a freshly cloned,
alias-free tree). -/
def jsSetProp2 (m : Json) (k1 k2 : String) (v : Json) : Option Json :=
  match jsSetProp (jsGet m k1) k2 v with
  | some child => jsSetProp m k1 child
  | none => none

/-- `m.k1.k2.k3 = v`. -/
def jsSetProp3 (m : Json) (k1 k2 k3 : String) (v : Json) : Option Json :=
  match jsSetProp (jsGet (jsGet m k1) k2) k3 v with
  | some child => jsSetProp2 m k1 k2 child
  | none => none

/-- `m.k1.k2.k3.k4 = v`. -/
def jsSetProp4 (m : Json) (k1 k2 k3 k4 : String) (v : Json) : Option Json :=
  match jsSetProp (jsGet (jsGet (jsGet m k1) k2) k3) k4 v with
  | some child => jsSetProp3 m k1 k2 k3 child
  | none => none

/-- The chain of defaulting property writes of `mergeResponses`:
ensure `response`, `response.body` and `response.body.items` exist,
then overwrite `response.body.items.item` with the merged array.  A
truthy value already present anywhere on the chain is kept as is; the
final write then succeeds on objects and on arrays (which gain an
expando `item` property, as when the upstream delivers
`response.body.items` as a bare array), and fails only on truthy
primitives, where JavaScript raises a `TypeError`. -/
def mergeSteps (base itemsMerged : Json) : Option Json :=
  match (if truthy (jsGet base "response") then some base
         else jsSetProp base "response" (Json.obj [])) with
  | none => none
  | some m1 =>
    match (if truthy (getPath m1 ["response", "body"]) then some m1
           else jsSetProp2 m1 "response" "body" (Json.obj [])) with
    | none => none
    | some m2 =>
      match (if truthy (getPath m2 ["response", "body", "items"]) then some m2
             else jsSetProp3 m2 "response" "body" "items" (Json.obj [])) with
      | none => none
      | some m3 => jsSetProp4 m3 "response" "body" "items" "item" itemsMerged

/-- `mergeResponses(jsonList)` from the source.  `deepClone` is the
`JSON.parse(JSON.stringify(..))` round trip, which is the identity on
the JSON trees the handler feeds it. -/
def mergeResponses (jsonList : List Json) : Option Json :=
  mergeSteps (jsOr (jsonList.headD Json.undef) (Json.obj []))
    (Json.arr ((jsonList.map pickItems).flatten))

/-! ## Amount formatting (`prettifyAmount`) -/

/-- `Math.round` of a non-negative parsed decimal:
`floor(x + 0.5)`, so the fraction rounds up exactly when it is at
least one half. -/
def decRound (d : DecNum) : Int :=
  d.1 + (if 10 ^ d.2.2 ≤ 2 * d.2.1 then 1 else 0)

/-- Is the parsed decimal exactly zero (`num === 0`)? -/
def decIsZero (d : DecNum) : Bool := d.1 == 0 && d.2.1 == 0

/-- Thousands grouping of a reversed digit list. -/
def groupRev : List Char → List Char
  | a :: b :: c :: d :: rest => a :: b :: c :: ',' :: groupRev (d :: rest)
  | l => l

/-- `n.toLocaleString("en-US")` for an integer: decimal digits in
groups of three separated by commas. -/
def jsLocaleString (n : Int) : String :=
  if n < 0 then "-" ++ String.mk ((groupRev (toString (-n)).data.reverse).reverse)
  else String.mk ((groupRev (toString n).data.reverse).reverse)

/-- `s.replace(/[^\d.]/g, "")`: keep only digits and dots. -/
def stripToDigitsDots (s : String) : String :=
  String.mk (s.data.filter (fun c => c.isDigit || c == '.'))

/-- `prettifyAmount(v)` from the source. -/
def prettifyAmount (v : Json) : String :=
  let s := jsTrim (jsToString (jsNullish v (Json.str "")))
  if s = "" then ""
  else
    match parseDigitsDots (stripToDigitsDots s) with
    | none => ""
    | some d => if decIsZero d then "" else jsLocaleString (decRound d)

/-! ## Record mapping, keyword filter, links (`extractItems`) -/

/-- The canonical pre-link record produced by the per-kind mapping
step of `extractItems`.  Fields keep their JavaScript values; the
fields a kind does not set stay `undefined`. -/
structure Mapped where
  title : Json := Json.undef
  date : Json := Json.undef
  time : Json := Json.undef
  org : Json := Json.undef
  amount : Json := Json.undef
  status : Json := Json.undef
  winner : Json := Json.undef
  period : Json := Json.undef
  idA : Json := Json.undef
  idB : Json := Json.undef

/-- The per-kind field-fallback mapping of one raw item
(the `arr.map((x) => {...})` body of `extractItems`). -/
def mapItem (kind : String) (x : Json) : Mapped :=
  if kind = "bid" then
    { title := jsOr (jsGet x "bidNtceNm")
        (jsOr (jsGet x "bidNtceName") (jsOr (jsGet x "bidNm") (Json.str "Untitled")))
      date := jsOr (jsGet x "bidNtceDate") (jsOr (jsGet x "bidNtceDt") (Json.str ""))
      time := jsOr (jsGet x "bidNtceBgn") (jsOr (jsGet x "bidNtceTime") (Json.str ""))
      org := jsOr (jsGet x "ntceInsttNm")
        (jsOr (jsGet x "dmndInsttNm") (jsOr (jsGet x "dminsttNm") (Json.str "")))
      amount := jsNullish (jsGet x "asignBdgtAmt")
        (jsNullish (jsGet x "presmptPrce") (jsNullish (jsGet x "presmPrce") (Json.str "")))
      status := jsOr (jsGet x "bidNtceSttusNm")
        (jsOr (jsGet x "bidNtceSttusName") (Json.str ""))
      idA := jsOr (jsGet x "bidNtceNo") (jsOr (jsGet x "bidNtceNum") (Json.str ""))
      idB := jsOr (jsGet x "bidNtceOrd") (jsOr (jsGet x "bidNtceSeq") (Json.str "")) }
  else if kind = "award" then
    { title := jsOr (jsGet x "bidNtceNm")
        (jsOr (jsGet x "bidNm") (jsOr (jsGet x "bidNtceName") (Json.str "Untitled")))
      date := jsOr (jsGet x "opengDate") (jsOr (jsGet x "opengDt") (Json.str ""))
      time := jsOr (jsGet x "opengTm") (Json.str "")
      org := jsOr (jsGet x "ntceInsttNm")
        (jsOr (jsGet x "dmndInsttNm") (jsOr (jsGet x "dminsttNm") (Json.str "")))
      amount := jsNullish (jsGet x "scsbidAmt")
        (jsNullish (jsGet x "scsbidPrice") (jsNullish (jsGet x "cntrctAmt") (Json.str "")))
      winner := jsOr (jsGet x "prtcptnEntrpsNm") (jsOr (jsGet x "sucsfnEntrpsNm") (Json.str ""))
      status := jsOr (jsGet x "bidNtceSttusNm")
        (jsOr (jsGet x "bidNtceSttusName") (Json.str "")) }
  else
    { title := jsOr (jsGet x "cntrctNm")
        (jsOr (jsGet x "cntrctName") (jsOr (jsGet x "bidNtceNm") (Json.str "Untitled")))
      date := jsOr (jsGet x "cntrctCnclsDate") (jsOr (jsGet x "cntrctDate") (Json.str ""))
      org := jsOr (jsGet x "dmndInsttNm")
        (jsOr (jsGet x "cntrctInsttNm")
          (jsOr (jsGet x "ntceInsttNm") (jsOr (jsGet x "dminsttNm") (Json.str ""))))
      amount := jsNullish (jsGet x "cntrctAmt") (jsNullish (jsGet x "contAmt") (Json.str ""))
      period := jsOr (jsGet x "cntrctPrd") (jsOr (jsGet x "cntrctPeriod") (Json.str ""))
      status := jsOr (jsGet x "cntrctCnclsSttusNm") (Json.str "") }

/-- `hasQ(s)` from `extractItems`: always true when filtering is off
or the folded keyword is empty, else a case-folded substring test. -/
def hasQ (filterEnabled : Bool) (qlc : String) (s : Json) : Bool :=
  if filterEnabled = false then true
  else if qlc = "" then true
  else strIncludes (jsToLower (jsToString (jsOr s (Json.str "")))) qlc

/-- The filter predicate `(it) => hasQ(it.title) || hasQ(it.org)`. -/
def passesFilter (filterEnabled : Bool) (qlc : String) (it : Mapped) : Bool :=
  hasQ filterEnabled qlc it.title || hasQ filterEnabled qlc it.org

/-- `mkSearchUrl(keyword)` from `extractItems`. -/
def mkSearchUrl (keyword : Json) : String :=
  "https://www.g2b.go.kr:8101/ep/tbid/tbidList.do?bidNm=" ++
    encodeURIComponent (jsToString (jsOr keyword (Json.str "")))

/-- The detail-link choice in the `withUrl` mapping step: a deep link
for a `bid` record with a truthy raw identifier, else the
search-listing link. -/
def resolveUrl (kind : String) (it : Mapped) : String :=
  if kind = "bid" && truthy it.idA then
    "https://www.g2b.go.kr:8081/ep/invitation/publish/bidInfoDtl.do?" ++
      ("bidno=" ++ encodeURIComponent (jsToString it.idA) ++
       "&bidseq=" ++ encodeURIComponent (padStart2 (jsToString (jsOr it.idB (Json.str "00"))))) ++
      "&releaseYn=Y&taskClCd=5"
  else mkSearchUrl it.title

/-- One returned record (the object literal of the `withUrl` map). -/
structure OutItem where
  title : Json
  date : Json
  time : Json
  org : Json
  amount : String
  status : Json
  winner : Json
  period : Json
  url : String
  fallbackUrl : String

/-- The `withUrl` mapping step of `extractItems`. -/
def finishItem (kind : String) (it : Mapped) : OutItem :=
  { title := it.title, date := it.date, time := it.time, org := it.org
    amount := prettifyAmount it.amount, status := it.status
    winner := it.winner, period := it.period
    url := resolveUrl kind it, fallbackUrl := mkSearchUrl it.title }

/-- The options object `extractItems` receives from the handler. -/
structure ExtractOpts where
  filterEnabled : Bool
  limit : Json

/-- The result record of `extractItems`. -/
structure ExtractResult where
  items : List OutItem
  totalItemsParsed : Nat
  matchedAfterFilter : Nat

/-- `extractItems(raw, kind, q, opts)` from the source. -/
def extractItems (raw : Json) (kind : String) (q : String) (opts : ExtractOpts) : ExtractResult :=
  let filterEnabled := opts.filterEnabled
  let limit := toInt opts.limit 50
  let arr := pickItems raw
  let qlc := jsTrim (jsToLower q)
  let mapped := arr.map (mapItem kind)
  let filtered := mapped.filter (passesFilter filterEnabled qlc)
  let withUrl := (jsSliceTo filtered limit).map (finishItem kind)
  { items := withUrl
    totalItemsParsed := arr.length
    matchedAfterFilter := filtered.length }

/-! ## Upstream fetch and the request boundary -/

/-- The observable outcome of one bounded-time upstream GET
(`fetchTextWithTimeout` result plus the `JSON.parse` result of its
body): `ok`/`status`/`text` as returned (a timeout or network failure
arrives as `ok = false`, `status = 599`), and `parsed` is the parse of
`text` (`none` when the body is not JSON). -/
structure FetchOutcome where
  ok : Bool
  status : Nat
  text : String
  parsed : Option Json

/-- The message of the error thrown on a non-2xx page. -/
def upstreamErrMsg (o : FetchOutcome) : String :=
  "Upstream " ++ toString o.status ++ ": " ++ strTake o.text 200

/-- The message of the error thrown on an unparseable body. -/
def nonJsonErrMsg (o : FetchOutcome) : String :=
  "Upstream non-JSON. First bytes: " ++ strTake o.text 200

/-- `fetchJsonUpstream(url)` from the source: throw on a failed or
non-2xx response, throw on an unparseable body, else return
`{url, json}`. -/
def fetchJsonUpstream (url : String) (o : FetchOutcome) : Except String (String × Json) :=
  if o.ok = false then .error (upstreamErrMsg o)
  else
    match o.parsed with
    | none => .error (nonJsonErrMsg o)
    | some j => .ok (url, j)

/-- The sequential page loop `for (i = 2; i <= pagesToFetch; i++)`:
fetch `k` pages starting at page `p`, aborting on the first failure. -/
def fetchFrom (urls : Int → String) (net : Int → FetchOutcome) :
    Int → Nat → Except String (List Json)
  | _, 0 => .ok []
  | p, Nat.succ k =>
    match fetchJsonUpstream (urls p) (net p) with
    | .error e => .error e
    | .ok r =>
      match fetchFrom urls net (p + 1) k with
      | .error e => .error e
      | .ok rest => .ok (r.2 :: rest)

/-- The whole multi-page retrieval: first page, total-count hint,
page budget, remaining pages.  Returns the hint, the number of pages
fetched, and the page documents in order. -/
def fetchPhase (urls : Int → String) (net : Int → FetchOutcome)
    (numOfRows pageNo maxPages : Int) : Except String (Int × Int × List Json) :=
  match fetchJsonUpstream (urls pageNo) (net pageNo) with
  | .error e => .error e
  | .ok first =>
    let totalCount := toInt (getPath first.2 ["response", "body", "totalCount"]) 0
    let n := decidePagesToFetch totalCount numOfRows pageNo maxPages
    match fetchFrom urls net (pageNo + 1) (n - 1).toNat with
    | .error e => .error e
    | .ok rest => .ok (totalCount, n, first.2 :: rest)

/-- The success payload assembled by the 200 branch of the handler
(the fields the claims speak about; the date-range label, source URL
and generation timestamp are diagnostic strings not modelled here). -/
structure Payload where
  kind : String
  q : String
  totalCountFromApi : Int
  pagesFetched : Int
  totalItemsParsed : Nat
  matchedAfterFilter : Nat
  returned : Nat
  filterEnabled : Bool
  items : List OutItem

/-- The response the transport collaborator delivers: an HTTP status
plus either an error payload (`error`/`message`) or a success
payload. -/
structure HttpResp where
  status : Nat
  errorTag : Option String := none
  message : Option String := none
  payload : Option Payload := none

/-- The handler pipeline from parameter normalization to the response
(`export default async function handler`).  The upstream network is
an oracle `net` giving the outcome of the GET for each page number,
and `urls` the URL built for each page; the credential check is
outside the modelled scope (its absence short-circuits before any
logic the claims mention).  A failed merge models the strict-mode
`TypeError` reaching the same catch-all as every other throw. -/
def handlerRun (urls : Int → String) (net : Int → FetchOutcome)
    (kindV qV filterV nrV pnV mpV : Json) : HttpResp :=
  let kind := normalizeKind kindV
  let q := strTake (jsTrim (jsToString (jsNullish qV (Json.str "")))) 60
  let filterEnabled := !(jsToString (jsNullish filterV (Json.str "1")) == "0")
  match endpointByKind kind with
  | none => { status := 400, errorTag := some "Invalid kind. Use bid|award|contract" }
  | some _ =>
    let numOfRows := clampInt nrV 100 1 1000
    let pageNo := clampInt pnV 1 1 9999
    let maxPages := clampInt mpV 3 1 10
    match fetchPhase urls net numOfRows pageNo maxPages with
    | .error e => { status := 500, errorTag := some "Proxy failed", message := some e }
    | .ok (totalCount, n, jsons) =>
      match mergeResponses jsons with
      | none => { status := 500, errorTag := some "Proxy failed"
                  message := some "TypeError" }
      | some merged =>
        let r := extractItems merged kind q { filterEnabled := filterEnabled, limit := Json.num 50 }
        { status := 200
          payload := some
            { kind := kind, q := q
              totalCountFromApi := totalCount, pagesFetched := n
              totalItemsParsed := r.totalItemsParsed
              matchedAfterFilter := r.matchedAfterFilter
              returned := r.items.length
              filterEnabled := filterEnabled
              items := r.items } }

/-! ## Helper lemmas -/

/-- `Math.ceil` bridging: the integer form of ceiling division used in
`decidePagesToFetch` agrees with the rational ceiling of the spec. -/
theorem ediv_eq_rat_ceil (a b : Int) (hb : 0 < b) :
    (a + b - 1) / b = ⌈(a : ℚ) / (b : ℚ)⌉ := by
  set n : Int := (a + b - 1) / b with hn
  have hbne : b ≠ 0 := ne_of_gt hb
  have hdm := Int.ediv_add_emod (a + b - 1) b
  have hm0 := Int.emod_nonneg (a + b - 1) hbne
  have hmlt := Int.emod_lt_of_pos (a + b - 1) hb
  have hlow : (n - 1) * b < a := by nlinarith [hdm, hm0]
  have hhigh : a ≤ n * b := by nlinarith [hdm, hmlt]
  have hbQ : (0 : ℚ) < (b : ℚ) := by exact_mod_cast hb
  symm
  rw [Int.ceil_eq_iff]
  constructor
  · rw [lt_div_iff₀ hbQ]
    exact_mod_cast hlow
  · rw [div_le_iff₀ hbQ]
    exact_mod_cast hhigh

/-- The lower clamp bound of `clampInt`. -/
theorem clampInt_lower (v : Json) (d mn mx : Int) (h : mn ≤ mx) :
    mn ≤ clampInt v d mn mx :=
  le_min h (le_max_left _ _)

/-- The upper clamp bound of `clampInt`. -/
theorem clampInt_upper (v : Json) (d mn mx : Int) :
    clampInt v d mn mx ≤ mx :=
  min_le_left _ _

/-! ## C1: pages-to-fetch arithmetic -/

/-- C1.  With paging inputs clamped the way the handler clamps them
(`numOfRows ∈ [1,1000]`, `pageNo ∈ [1,9999]`, `maxPages ∈ [1,10]`),
the page budget is
`max 1 (min maxPages (⌈totalCount / numOfRows⌉ - (pageNo - 1)))` for a
positive total-count hint and `maxPages` for an unknown or
non-positive one; in particular `rowsPerPage=100, startPage=1,
maxPages=3` give `3` pages for `totalCount=250`, `1` page for
`totalCount=50`, and `3` pages for `totalCount=0`. -/
theorem decidePagesToFetch_spec (nrV pnV mpV : Json) (tc : Int) :
    ((0 < tc →
        decidePagesToFetch tc (clampInt nrV 100 1 1000) (clampInt pnV 1 1 9999)
            (clampInt mpV 3 1 10) =
          max 1 (min (clampInt mpV 3 1 10)
            (⌈(tc : ℚ) / ((clampInt nrV 100 1 1000 : Int) : ℚ)⌉ -
              (clampInt pnV 1 1 9999 - 1)))) ∧
      (tc ≤ 0 →
        decidePagesToFetch tc (clampInt nrV 100 1 1000) (clampInt pnV 1 1 9999)
            (clampInt mpV 3 1 10) = clampInt mpV 3 1 10)) ∧
    decidePagesToFetch 250 100 1 3 = 3 ∧
    decidePagesToFetch 50 100 1 3 = 1 ∧
    decidePagesToFetch 0 100 1 3 = 3 := by
  refine ⟨⟨?_, ?_⟩, by decide, by decide, by decide⟩
  · intro htc
    have hnr : (0 : Int) < clampInt nrV 100 1 1000 :=
      lt_of_lt_of_le one_pos (le_of_eq rfl) |>.trans_le (clampInt_lower nrV 100 1 1000 (by norm_num))
    unfold decidePagesToFetch
    rw [if_neg (by omega)]
    rw [ediv_eq_rat_ceil tc _ hnr]
  · intro htc
    unfold decidePagesToFetch
    rw [if_pos htc]

/-- Witness for C1 at `totalCount = 250, rowsPerPage = 100,
startPage = 1, maxPages = 3`. -/
theorem decidePagesToFetch_spec_witness :
    decidePagesToFetch 250 (clampInt (Json.num 100) 100 1 1000)
        (clampInt (Json.num 1) 1 1 9999) (clampInt (Json.num 3) 3 1 10) =
      max 1 (min (clampInt (Json.num 3) 3 1 10)
        (⌈(250 : ℚ) / ((clampInt (Json.num 100) 100 1 1000 : Int) : ℚ)⌉ -
          (clampInt (Json.num 1) 1 1 9999 - 1))) :=
  (decidePagesToFetch_spec (Json.num 100) (Json.num 1) (Json.num 3) 250).1.1 (by norm_num)

/-! ## C4: KST date window -/

/-- C4.  The lookback is 6 days for `award` and 29 for `bid` and
`contract`; the window start precedes its end, and the two rendered
calendar dates are exactly `lookbackDays(kind)` civil days apart. -/
theorem kstWindow_spec (nowMs : Int) (kind : String) :
    daysBackOf "award" = 6 ∧ daysBackOf "bid" = 29 ∧ daysBackOf "contract" = 29 ∧
    fromKstMs nowMs kind ≤ getNowKstDate nowMs ∧
    dayIndex (getNowKstDate nowMs) - dayIndex (fromKstMs nowMs kind) = daysBackOf kind ∧
    fmtYmd (fromKstMs nowMs kind) =
      ymdOfDayIndex (dayIndex (getNowKstDate nowMs) - daysBackOf kind) := by
  have hd : daysBackOf kind = 6 ∨ daysBackOf kind = 29 := by
    unfold daysBackOf
    split
    · exact Or.inl rfl
    · exact Or.inr rfl
  have key : ∀ x d : Int, (x - d * 86400000) / 86400000 = x / 86400000 - d := by
    intro x d
    have h : x - d * 86400000 = x + (-d) * 86400000 := by ring
    rw [h, Int.add_mul_ediv_right x (-d) (by norm_num)]
    ring
  have hsub : fromKstMs nowMs kind = getNowKstDate nowMs - daysBackOf kind * 86400000 := by
    unfold fromKstMs
    ring
  have hdi : dayIndex (fromKstMs nowMs kind) =
      dayIndex (getNowKstDate nowMs) - daysBackOf kind := by
    rw [hsub]
    unfold dayIndex
    exact key _ _
  refine ⟨by decide, by decide, by decide, ?_, ?_, ?_⟩
  · rw [hsub]
    rcases hd with h | h <;> rw [h] <;> omega
  · rw [hdi]; ring
  · unfold fmtYmd
    rw [hdi]

/-! ## C9: kind normalization -/

/-- C9.  A `kind` parameter that is not one of the three recognized
values after lower-casing and trimming is silently normalized to
`bid`; the endpoint lookup then succeeds and the handler never takes
its invalid-input (400) branch. -/
theorem normalizeKind_spec (v qV fV nrV pnV mpV : Json)
    (urls : Int → String) (net : Int → FetchOutcome)
    (h : jsTrim (jsToLower (jsToString (jsOr v (Json.str "bid")))) ≠ "bid" ∧
         jsTrim (jsToLower (jsToString (jsOr v (Json.str "bid")))) ≠ "award" ∧
         jsTrim (jsToLower (jsToString (jsOr v (Json.str "bid")))) ≠ "contract") :
    normalizeKind v = "bid" ∧
    (endpointByKind (normalizeKind v)).isSome = true ∧
    (handlerRun urls net v qV fV nrV pnV mpV).status ≠ 400 := by
  have hk : normalizeKind v = "bid" := by
    unfold normalizeKind normKindStr
    rw [if_neg]
    simp only [Bool.or_eq_true, decide_eq_true_eq]
    push_neg
    exact ⟨⟨h.1, h.2.1⟩, h.2.2⟩
  refine ⟨hk, by rw [hk]; decide, ?_⟩
  unfold handlerRun
  rw [hk]
  cases hfp : fetchPhase urls net (clampInt nrV 100 1 1000) (clampInt pnV 1 1 9999)
      (clampInt mpV 3 1 10) with
  | error e => simp [endpointByKind, hfp]
  | ok t =>
    obtain ⟨tc, n, js⟩ := t
    cases hmg : mergeResponses js with
    | none => simp [endpointByKind, hfp, hmg]
    | some m => simp [endpointByKind, hfp, hmg]

/-- Witness for C9 at the unrecognized kind `"foo"`. -/
theorem normalizeKind_spec_witness :
    normalizeKind (Json.str "foo") = "bid" ∧
    (endpointByKind (normalizeKind (Json.str "foo"))).isSome = true ∧
    (handlerRun (fun _ => "u") (fun _ => ⟨false, 599, "t", none⟩)
        (Json.str "foo") Json.undef Json.undef Json.undef Json.undef Json.undef).status ≠ 400 :=
  normalizeKind_spec (Json.str "foo") Json.undef Json.undef Json.undef Json.undef Json.undef
    (fun _ => "u") (fun _ => ⟨false, 599, "t", none⟩) (by decide)

/-! ## C5: keyword filter -/

/-- C5.  With filtering disabled or an empty folded keyword every
record passes; with filtering enabled and a non-empty keyword a
record passes exactly when the case-folded keyword is a substring of
the case-folded title or organization; the claim's Korean/ASCII
examples behave as stated. -/
theorem keywordFilter_spec (it : Mapped) (l : List Mapped) (q : String) (fe : Bool) :
    (fe = false → passesFilter fe (jsTrim (jsToLower q)) it = true) ∧
    (jsTrim (jsToLower q) = "" → passesFilter fe (jsTrim (jsToLower q)) it = true) ∧
    (fe = false ∨ jsTrim (jsToLower q) = "" →
      l.filter (passesFilter fe (jsTrim (jsToLower q))) = l) ∧
    (fe = true → jsTrim (jsToLower q) ≠ "" →
      (passesFilter fe (jsTrim (jsToLower q)) it = true ↔
        strIncludes (jsToLower (jsToString (jsOr it.title (Json.str ""))))
            (jsTrim (jsToLower q)) = true ∨
        strIncludes (jsToLower (jsToString (jsOr it.org (Json.str ""))))
            (jsTrim (jsToLower q)) = true)) ∧
    passesFilter true "ai" { title := Json.str "AI 시스템 구축", org := Json.str "" } = true ∧
    passesFilter true "시스템" { title := Json.str "AI 시스템 구축", org := Json.str "" } = true ∧
    passesFilter true "ai구축2" { title := Json.str "AI 시스템 구축", org := Json.str "" } = false := by
  refine ⟨?_, ?_, ?_, ?_, by decide, by decide, by decide⟩
  · intro h
    simp [passesFilter, hasQ, h]
  · intro h
    simp [passesFilter, hasQ, h]
  · intro h
    refine List.filter_eq_self.mpr (fun a _ => ?_)
    rcases h with h | h <;> simp [passesFilter, hasQ, h]
  · intro hfe hq
    simp [passesFilter, hasQ, hfe, hq]

/-- Witness for C5: the disabled-filter case and the enabled
substring case, at concrete records and keywords. -/
theorem keywordFilter_spec_witness :
    passesFilter false (jsTrim (jsToLower "zz"))
        { title := Json.str "t", org := Json.str "o" } = true ∧
    (passesFilter true (jsTrim (jsToLower "AI"))
        { title := Json.str "AI 시스템 구축", org := Json.str "" } = true) :=
  ⟨(keywordFilter_spec { title := Json.str "t", org := Json.str "o" } [] "zz" false).1 rfl,
   ((keywordFilter_spec { title := Json.str "AI 시스템 구축", org := Json.str "" } [] "AI"
        true).2.2.2.1 rfl (by decide)).mpr (Or.inl (by decide))⟩

/-! ## C6: amount formatting -/

/-- C6.  The amount formatter keeps only digits and dots, parses the
rest as a decimal number, returns the empty string on an empty,
unparseable or zero value, and otherwise renders the value rounded to
the nearest integer with thousands separators; the claim's three
examples evaluate as stated. -/
theorem prettifyAmount_spec (v : Json) :
    (jsTrim (jsToString (jsNullish v (Json.str ""))) = "" → prettifyAmount v = "") ∧
    (parseDigitsDots (stripToDigitsDots (jsTrim (jsToString (jsNullish v (Json.str ""))))) =
        none → prettifyAmount v = "") ∧
    (∀ d : DecNum,
      parseDigitsDots (stripToDigitsDots (jsTrim (jsToString (jsNullish v (Json.str ""))))) =
          some d →
      (decIsZero d = true → prettifyAmount v = "") ∧
      (decIsZero d = false → jsTrim (jsToString (jsNullish v (Json.str ""))) ≠ "" →
        prettifyAmount v = jsLocaleString (decRound d))) ∧
    prettifyAmount (Json.str "1,234,000원") = "1,234,000" ∧
    prettifyAmount (Json.str "0") = "" ∧
    prettifyAmount (Json.num 5000000) = "5,000,000" := by
  refine ⟨?_, ?_, ?_, by decide, by decide, by decide⟩
  · intro h
    simp [prettifyAmount, h]
  · intro h
    by_cases hs : jsTrim (jsToString (jsNullish v (Json.str ""))) = ""
    · simp [prettifyAmount, hs]
    · simp [prettifyAmount, hs, h]
  · intro d hd
    constructor
    · intro hz
      by_cases hs : jsTrim (jsToString (jsNullish v (Json.str ""))) = ""
      · simp [prettifyAmount, hs]
      · simp [prettifyAmount, hs, hd, hz]
    · intro hz hs
      simp [prettifyAmount, hs, hd, hz]

/-- Witness for C6 at the literal `"7"`. -/
theorem prettifyAmount_spec_witness :
    prettifyAmount (Json.str "7") = jsLocaleString (decRound ((7 : Int), 0, 0)) :=
  (((prettifyAmount_spec (Json.str "7")).2.2.1 ((7 : Int), 0, 0) (by decide)).2
    (by decide) (by decide))

/-! ## C8: count invariants -/

/-- C8.  For every merged upstream document, kind, keyword and filter
flag, the assembled counts satisfy
`totalScanned ≥ totalMatched ≥ returnedCount` and the returned list
never exceeds the configured cap of 50 items. -/
theorem resultCounts_spec (raw : Json) (kind q : String) (fe : Bool) :
    (extractItems raw kind q ⟨fe, Json.num 50⟩).matchedAfterFilter ≤
      (extractItems raw kind q ⟨fe, Json.num 50⟩).totalItemsParsed ∧
    (extractItems raw kind q ⟨fe, Json.num 50⟩).items.length ≤
      (extractItems raw kind q ⟨fe, Json.num 50⟩).matchedAfterFilter ∧
    (extractItems raw kind q ⟨fe, Json.num 50⟩).items.length ≤ 50 := by
  unfold extractItems
  simp only [List.length_map]
  refine ⟨?_, ?_, ?_⟩
  · exact (List.length_filter_le _ _).trans (le_of_eq (List.length_map _ _))
  · show (jsSliceTo _ (toInt (Json.num 50) 50)).length ≤ _
    have : toInt (Json.num 50) 50 = 50 := rfl
    rw [this]
    simp [jsSliceTo]
  · show (jsSliceTo _ (toInt (Json.num 50) 50)).length ≤ 50
    have : toInt (Json.num 50) 50 = 50 := rfl
    rw [this]
    simp [jsSliceTo]

/-! ## C10: the `"Untitled"` placeholder -/

/-- The ordered title fallback chain of each kind, as read by
`mapItem`. -/
def titleChain (kind : String) : List String :=
  if kind = "bid" then ["bidNtceNm", "bidNtceName", "bidNm"]
  else if kind = "award" then ["bidNtceNm", "bidNm", "bidNtceName"]
  else ["cntrctNm", "cntrctName", "bidNtceNm"]

/-- C10.  When every field of the kind's title fallback chain is
absent or empty, the canonical title is the placeholder `"Untitled"`;
that placeholder then filters like ordinary data (enabled keyword
filtering passes the record exactly when the folded keyword occurs in
`"untitled"` or in the folded organization) and is embedded as the
search term of the record's fallback search-listing link. -/
theorem untitledFallback_spec (x : Json) (kind q : String)
    (hk : kind = "bid" ∨ kind = "award" ∨ kind = "contract")
    (habs : ∀ f ∈ titleChain kind, jsGet x f = Json.undef ∨ jsGet x f = Json.str "") :
    (mapItem kind x).title = Json.str "Untitled" ∧
    (jsTrim (jsToLower q) ≠ "" →
      (passesFilter true (jsTrim (jsToLower q)) (mapItem kind x) = true ↔
        strIncludes "untitled" (jsTrim (jsToLower q)) = true ∨
        strIncludes (jsToLower (jsToString (jsOr (mapItem kind x).org (Json.str ""))))
          (jsTrim (jsToLower q)) = true)) ∧
    (finishItem kind (mapItem kind x)).fallbackUrl =
      "https://www.g2b.go.kr:8101/ep/tbid/tbidList.do?bidNm=Untitled" := by
  have hfal : ∀ f ∈ titleChain kind, truthy (jsGet x f) = false := by
    intro f hf
    rcases habs f hf with h | h <;> rw [h] <;> rfl
  have htitle : (mapItem kind x).title = Json.str "Untitled" := by
    rcases hk with h | h | h <;> subst h
    · have h1 := hfal "bidNtceNm" (by decide)
      have h2 := hfal "bidNtceName" (by decide)
      have h3 := hfal "bidNm" (by decide)
      simp [mapItem, jsOr, h1, h2, h3]
    · have h1 := hfal "bidNtceNm" (by decide)
      have h2 := hfal "bidNm" (by decide)
      have h3 := hfal "bidNtceName" (by decide)
      simp [mapItem, jsOr, h1, h2, h3]
    · have h1 := hfal "cntrctNm" (by decide)
      have h2 := hfal "cntrctName" (by decide)
      have h3 := hfal "bidNtceNm" (by decide)
      simp [mapItem, jsOr, h1, h2, h3]
  have hfold : jsToLower (jsToString (jsOr (Json.str "Untitled") (Json.str ""))) =
      "untitled" := by decide
  refine ⟨htitle, ?_, ?_⟩
  · intro hq
    have hH : ∀ s : Json, hasQ true (jsTrim (jsToLower q)) s =
        strIncludes (jsToLower (jsToString (jsOr s (Json.str ""))))
          (jsTrim (jsToLower q)) := by
      intro s
      simp [hasQ, hq]
    rw [passesFilter, hH, hH, htitle, hfold]
    exact iff_of_eq (Bool.or_eq_true _ _)
  · show mkSearchUrl (mapItem kind x).title = _
    rw [htitle]
    decide

/-- Witness for C10 at an item with no fields at all, kind `bid`,
keyword `"tit"`. -/
theorem untitledFallback_spec_witness :
    (mapItem "bid" (Json.obj [])).title = Json.str "Untitled" ∧
    passesFilter true (jsTrim (jsToLower "tit")) (mapItem "bid" (Json.obj [])) = true ∧
    (finishItem "bid" (mapItem "bid" (Json.obj []))).fallbackUrl =
      "https://www.g2b.go.kr:8101/ep/tbid/tbidList.do?bidNm=Untitled" := by
  have h := untitledFallback_spec (Json.obj []) "bid" "tit" (Or.inl rfl)
    (fun f _ => Or.inl rfl)
  exact ⟨h.1, (h.2.1 (by decide)).mpr (Or.inl (by decide)), h.2.2⟩

/-! ## C7: link resolution -/

/-- A middle chunk of a three-part concatenation is a substring. -/
theorem strIncludes_append_middle (a b c : String) :
    strIncludes (a ++ b ++ c) b = true := by
  unfold strIncludes
  rw [decide_eq_true_eq, String.data_append, String.data_append]
  exact List.infix_append _ _ _

/-- The tail pair of the deep link's query chunk is a substring of the
whole URL. -/
theorem strIncludes_concat_four (p b1 e1 b2 e2 s : String) :
    strIncludes (p ++ (b1 ++ e1 ++ b2 ++ e2) ++ s) (b2 ++ e2) = true := by
  unfold strIncludes
  rw [decide_eq_true_eq]
  refine ⟨(p ++ b1 ++ e1).data, s.data, ?_⟩
  simp [String.data_append, List.append_assoc]

/-- The search-listing link is never the empty string. -/
theorem mkSearchUrl_ne_empty (t : Json) : mkSearchUrl t ≠ "" := by
  unfold mkSearchUrl
  intro h
  have hd := congrArg String.data h
  rw [String.data_append] at hd
  exact absurd (List.append_eq_nil.mp hd).1 (by decide)

/-- C7.  A `bid` record with a truthy raw notice identifier gets a
deep link embedding that identifier and the 2-digit zero-padded
ordinal (`"00"` when the ordinal is absent); the claim's example
identifier and ordinal produce `bidno=20240101001&bidseq=01`; records
without an identifier (and records of other kinds) get the
search-listing link as their detail link; and every returned record
carries the non-empty search-listing link as `fallbackUrl`. -/
theorem linkResolver_spec (it : Mapped) (kind : String) (raw : Json) (q : String) (fe : Bool) :
    (truthy it.idA = false → resolveUrl "bid" it = mkSearchUrl it.title) ∧
    (kind ≠ "bid" → resolveUrl kind it = mkSearchUrl it.title) ∧
    (truthy it.idA = true →
      strIncludes (resolveUrl "bid" it)
        ("bidno=" ++ encodeURIComponent (jsToString it.idA) ++ "&bidseq=" ++
          encodeURIComponent (padStart2 (jsToString (jsOr it.idB (Json.str "00"))))) = true) ∧
    (truthy it.idA = true → truthy it.idB = false →
      strIncludes (resolveUrl "bid" it) "&bidseq=00" = true) ∧
    strIncludes
      (resolveUrl "bid" { idA := Json.str "20240101001", idB := Json.num 1, title := Json.undef })
      "bidno=20240101001&bidseq=01" = true ∧
    (∀ o ∈ (extractItems raw kind q ⟨fe, Json.num 50⟩).items,
      o.fallbackUrl = mkSearchUrl o.title ∧ o.fallbackUrl ≠ "") := by
  refine ⟨?_, ?_, ?_, ?_, by decide, ?_⟩
  · intro h
    simp [resolveUrl, h]
  · intro h
    simp [resolveUrl, h]
  · intro h
    simp only [resolveUrl, h, decide_True, Bool.and_self, if_true]
    exact strIncludes_append_middle _ _ _
  · intro h hb
    have hB : jsOr it.idB (Json.str "00") = Json.str "00" := by simp [jsOr, hb]
    have henc : encodeURIComponent (padStart2 (jsToString (Json.str "00"))) = "00" := by decide
    have hneedle : ("&bidseq=00" : String) = "&bidseq=" ++ "00" := by decide
    simp only [resolveUrl, h, hB, henc, hneedle, decide_True, Bool.and_self, if_true]
    exact strIncludes_concat_four _ _ _ _ _ _
  · intro o ho
    unfold extractItems at ho
    obtain ⟨m, _, rfl⟩ := List.mem_map.mp ho
    exact ⟨rfl, mkSearchUrl_ne_empty _⟩

/-- Witness for C7: the no-identifier case, the non-`bid` case, the
identifier substring, and the absent-ordinal default. -/
theorem linkResolver_spec_witness :
    resolveUrl "bid" ({ title := Json.str "t" } : Mapped) =
      mkSearchUrl (({ title := Json.str "t" } : Mapped).title) ∧
    resolveUrl "award" ({ title := Json.str "t", idA := Json.str "1" } : Mapped) =
      mkSearchUrl (({ title := Json.str "t", idA := Json.str "1" } : Mapped).title) ∧
    strIncludes (resolveUrl "bid" ({ idA := Json.str "20240101001" } : Mapped))
      ("bidno=" ++
        encodeURIComponent (jsToString (({ idA := Json.str "20240101001" } : Mapped).idA)) ++
        "&bidseq=" ++
        encodeURIComponent (padStart2 (jsToString
          (jsOr (({ idA := Json.str "20240101001" } : Mapped).idB) (Json.str "00"))))) = true ∧
    strIncludes (resolveUrl "bid" ({ idA := Json.str "20240101001" } : Mapped))
      "&bidseq=00" = true := by
  refine ⟨(linkResolver_spec ({ title := Json.str "t" } : Mapped) "bid" Json.undef "" true).1 rfl,
    (linkResolver_spec ({ title := Json.str "t", idA := Json.str "1" } : Mapped) "award"
      Json.undef "" true).2.1 (by decide),
    (linkResolver_spec ({ idA := Json.str "20240101001" } : Mapped) "bid"
      Json.undef "" true).2.2.1 rfl,
    (linkResolver_spec ({ idA := Json.str "20240101001" } : Mapped) "bid"
      Json.undef "" true).2.2.2.1 rfl rfl⟩

/-! ## C3: merge and re-extraction -/

/-- `setField` leaves the written binding where `find?` sees it
first. -/
theorem find?_setField (fs : List (String × Json)) (k : String) (v : Json) :
    (setField fs k v).find? (fun p => p.1 == k) = some (k, v) := by
  induction fs with
  | nil => simp [setField]
  | cons p fs ih =>
    obtain ⟨k', v'⟩ := p
    by_cases h : k' = k
    · simp [setField, h]
    · have hbe : (k' == k) = false := beq_eq_false_iff_ne.mpr h
      simp only [setField, if_neg h]
      simp [List.find?, hbe, ih]

/-- Reading back the property just assigned, on every assignable
target (object, bare array, array with expando properties). -/
theorem jsGet_jsSetProp (o o' : Json) (k : String) (v : Json)
    (h : jsSetProp o k v = some o') : jsGet o' k = v := by
  cases o with
  | obj fs =>
    simp only [jsSetProp, Option.some.injEq] at h
    subst h
    simp [jsGet, find?_setField]
  | arr xs =>
    simp only [jsSetProp, Option.some.injEq] at h
    subst h
    simp [jsGet, List.find?]
  | arrObj xs fs =>
    simp only [jsSetProp, Option.some.injEq] at h
    subst h
    simp [jsGet, find?_setField]
  | undef => exact absurd h (by simp [jsSetProp])
  | null => exact absurd h (by simp [jsSetProp])
  | bool b => exact absurd h (by simp [jsSetProp])
  | num n => exact absurd h (by simp [jsSetProp])
  | str t => exact absurd h (by simp [jsSetProp])

/-- A successful four-level property write is read back by the same
four-level path. -/
theorem jsSetProp4_getPath (m3 m v : Json) (k1 k2 k3 k4 : String)
    (h : jsSetProp4 m3 k1 k2 k3 k4 v = some m) :
    getPath m [k1, k2, k3, k4] = v := by
  unfold jsSetProp4 at h
  cases h4 : jsSetProp (jsGet (jsGet (jsGet m3 k1) k2) k3) k4 v with
  | none => rw [h4] at h; exact absurd h (by simp)
  | some c3 =>
    rw [h4] at h
    dsimp only at h
    unfold jsSetProp3 at h
    cases h3 : jsSetProp (jsGet (jsGet m3 k1) k2) k3 c3 with
    | none => rw [h3] at h; exact absurd h (by simp)
    | some c2 =>
      rw [h3] at h
      dsimp only at h
      unfold jsSetProp2 at h
      cases h2 : jsSetProp (jsGet m3 k1) k2 c2 with
      | none => rw [h2] at h; exact absurd h (by simp)
      | some c1 =>
        rw [h2] at h
        dsimp only at h
        have g1 := jsGet_jsSetProp _ _ _ _ h
        have g2 := jsGet_jsSetProp _ _ _ _ h2
        have g3 := jsGet_jsSetProp _ _ _ _ h3
        have g4 := jsGet_jsSetProp _ _ _ _ h4
        simp only [getPath, List.foldl_cons, List.foldl_nil]
        rw [g1, g2, g3, g4]

/-- The final unwrap step of `pickItems` in isolation. -/
def unwrapOnce (c : List Json) : List Json :=
  match c with
  | [x] =>
    if truthy x then
      match jsGet x "item" with
      | .arr ys => ys
      | .arrObj ys _ => ys
      | _ => [x]
    else [x]
  | other => other

/-- `pickItems` on a document whose deepest candidate path holds an
array: the array comes back through the one-step unwrap. -/
theorem pickItems_of_item_arr (m : Json) (c : List Json)
    (h : getPath m ["response", "body", "items", "item"] = Json.arr c) :
    pickItems m = unwrapOnce c := by
  unfold pickItems
  simp only [h, jsNullish, isNullish]
  rfl

/-- Whether a page concatenation has the shape that `pickItems`
unwraps one extra time. -/
def singleWrapped (c : List Json) : Bool :=
  match c with
  | [x] => truthy x && isArr (jsGet x "item")
  | _ => false

/-- `unwrapOnce` is the identity away from the wrapped-singleton
shape. -/
theorem unwrapOnce_of_not_singleWrapped (c : List Json)
    (h : singleWrapped c = false) : unwrapOnce c = c := by
  match c with
  | [] => rfl
  | [x] =>
    have h' : (truthy x && isArr (jsGet x "item")) = false := h
    show (if truthy x = true then
        (match jsGet x "item" with
         | .arr ys => ys
         | .arrObj ys _ => ys
         | _ => [x]) else [x]) = [x]
    by_cases ht : truthy x = true
    · rw [if_pos ht]
      rw [ht] at h'
      have hi : isArr (jsGet x "item") = false := by simpa using h'
      cases hj : jsGet x "item" <;> simp_all [isArr]
    · rw [if_neg ht]
  | x :: y :: rest => rfl

/-- C3 (amended).  Whenever the merge succeeds, the merged document
stores exactly the order-preserving concatenation of each page's
extracted items (page 1 first) at its deepest item path; re-extracting
items from the merged document applies one further `pickItems` unwrap
step to that concatenation, so it returns the concatenation itself
whenever the concatenation is not a single truthy element wrapping an
array-valued `item` field. -/
theorem mergeResponses_spec (jsonList : List Json) (m : Json)
    (hmg : mergeResponses jsonList = some m) :
    getPath m ["response", "body", "items", "item"] =
      Json.arr ((jsonList.map pickItems).flatten) ∧
    pickItems m = unwrapOnce ((jsonList.map pickItems).flatten) ∧
    (singleWrapped ((jsonList.map pickItems).flatten) = false →
      pickItems m = (jsonList.map pickItems).flatten) := by
  unfold mergeResponses mergeSteps at hmg
  split at hmg
  · exact absurd hmg (by simp)
  · split at hmg
    · exact absurd hmg (by simp)
    · split at hmg
      · exact absurd hmg (by simp)
      · have hpath := jsSetProp4_getPath _ _ _ _ _ _ _ hmg
        refine ⟨hpath, pickItems_of_item_arr _ _ hpath, fun hsw => ?_⟩
        rw [pickItems_of_item_arr _ _ hpath, unwrapOnce_of_not_singleWrapped _ hsw]

/-- Witness for C3 (amended): a single flat page of two items merges
and re-extracts to exactly those two items, both when the page has no
envelope at all and when the envelope carries `response.body.items`
as a bare array (which the merge turns into an array with an expando
`item` property). -/
theorem mergeResponses_spec_witness :
    (pickItems (Json.obj [("items", Json.arr [Json.str "a", Json.str "b"]),
        ("response", Json.obj [("body", Json.obj [("items",
          Json.obj [("item", Json.arr [Json.str "a", Json.str "b"])])])])]) =
      ([Json.obj [("items", Json.arr [Json.str "a", Json.str "b"])]].map pickItems).flatten) ∧
    (pickItems (Json.obj [("response", Json.obj [("body", Json.obj [("items",
        Json.arrObj [Json.str "a", Json.str "b"]
          [("item", Json.arr [Json.str "a", Json.str "b"])])])])]) =
      ([Json.obj [("response", Json.obj [("body", Json.obj [("items",
        Json.arr [Json.str "a", Json.str "b"])])])]].map pickItems).flatten) :=
  ⟨(mergeResponses_spec [Json.obj [("items", Json.arr [Json.str "a", Json.str "b"])]]
      (Json.obj [("items", Json.arr [Json.str "a", Json.str "b"]),
        ("response", Json.obj [("body", Json.obj [("items",
          Json.obj [("item", Json.arr [Json.str "a", Json.str "b"])])])])])
      rfl).2.2 rfl,
   (mergeResponses_spec [Json.obj [("response", Json.obj [("body", Json.obj [("items",
        Json.arr [Json.str "a", Json.str "b"])])])]]
      (Json.obj [("response", Json.obj [("body", Json.obj [("items",
        Json.arrObj [Json.str "a", Json.str "b"]
          [("item", Json.arr [Json.str "a", Json.str "b"])])])])])
      rfl).2.2 rfl⟩

/-- Counterexample to C3 as stated: for this one-page envelope the
concatenation of extracted items is the single wrapper object
`{item: ["x"]}`, but re-extracting from the merged document unwraps it
once more and yields `["x"]`, not the concatenation. -/
theorem mergeResponses_cex :
    (([Json.obj [("response", Json.obj [("body", Json.obj [("items", Json.obj [("item",
          Json.arr [Json.obj [("item", Json.arr [Json.obj [("item",
            Json.arr [Json.str "x"])]])]])])])])]].map pickItems).flatten =
        [Json.obj [("item", Json.arr [Json.str "x"])]]) ∧
    ((mergeResponses [Json.obj [("response", Json.obj [("body", Json.obj [("items",
          Json.obj [("item", Json.arr [Json.obj [("item", Json.arr [Json.obj [("item",
            Json.arr [Json.str "x"])]])]])])])])]]).map pickItems =
        some [Json.str "x"]) ∧
    ¬ ([Json.str "x"] = [Json.obj [("item", Json.arr [Json.str "x"])]]) := by
  refine ⟨rfl, rfl, ?_⟩
  intro hcontra
  injection hcontra with h1 _
  exact Json.noConfusion h1

/-! ## C2: upstream failure propagation -/

/-- `normalizeKind` only ever returns one of the three recognized
kinds. -/
theorem normalizeKind_cases (v : Json) :
    normalizeKind v = "bid" ∨ normalizeKind v = "award" ∨ normalizeKind v = "contract" := by
  unfold normalizeKind normKindStr
  split
  · next h =>
    simp only [Bool.or_eq_true, decide_eq_true_eq] at h
    rcases h with (h | h) | h
    exacts [Or.inl h, Or.inr (Or.inl h), Or.inr (Or.inr h)]
  · exact Or.inl rfl

/-- An error out of the sequential page loop is the error thrown by
one fetched page. -/
theorem fetchFrom_error_src (urls : Int → String) (net : Int → FetchOutcome) :
    ∀ (k : Nat) (p : Int) (e : String), fetchFrom urls net p k = .error e →
      ∃ pp, fetchJsonUpstream (urls pp) (net pp) = .error e := by
  intro k
  induction k with
  | zero => intro p e h; exact absurd h (by simp [fetchFrom])
  | succ n ih =>
    intro p e h
    unfold fetchFrom at h
    cases hf : fetchJsonUpstream (urls p) (net p) with
    | error e1 =>
      rw [hf] at h
      simp only [Except.error.injEq] at h
      exact ⟨p, by rw [hf, h]⟩
    | ok r =>
      rw [hf] at h
      cases hrest : fetchFrom urls net (p + 1) n with
      | error e2 =>
        rw [hrest] at h
        simp only [Except.error.injEq] at h
        exact h ▸ ih (p + 1) e2 hrest
      | ok rest => rw [hrest] at h; exact absurd h (by simp)

/-- C2 (amended).  When any fetched page fails — timeout or network
failure (`ok = false`), non-2xx status, or an unparseable body — the
whole multi-page operation aborts: the handler returns no item
payload at all, surfacing HTTP status 500 with the error tag
`"Proxy failed"` and a message that carries the upstream status and
the response body truncated to 200 characters (the offending URL is
not part of the message); the surfaced message is exactly the error
of one fetched page. -/
theorem upstreamFailure_spec (urls : Int → String) (net : Int → FetchOutcome)
    (kindV qV fV nrV pnV mpV : Json) (e : String)
    (h : fetchPhase urls net (clampInt nrV 100 1 1000) (clampInt pnV 1 1 9999)
        (clampInt mpV 3 1 10) = .error e) :
    handlerRun urls net kindV qV fV nrV pnV mpV =
      { status := 500, errorTag := some "Proxy failed", message := some e, payload := none } ∧
    (∃ p, fetchJsonUpstream (urls p) (net p) = .error e) ∧
    (∀ o : FetchOutcome, ∀ u : String,
      (o.ok = false → fetchJsonUpstream u o = Except.error (upstreamErrMsg o)) ∧
      (o.ok = true → o.parsed = none → fetchJsonUpstream u o = Except.error (nonJsonErrMsg o))) := by
  refine ⟨?_, ?_, ?_⟩
  · have hep : ∃ s, endpointByKind (normalizeKind kindV) = some s := by
      rcases normalizeKind_cases kindV with hk | hk | hk <;> rw [hk] <;> exact ⟨_, rfl⟩
    obtain ⟨s, hs⟩ := hep
    simp only [handlerRun, hs, h]
  · unfold fetchPhase at h
    cases hf : fetchJsonUpstream (urls (clampInt pnV 1 1 9999)) (net (clampInt pnV 1 1 9999)) with
    | error e1 =>
      rw [hf] at h
      simp only [Except.error.injEq] at h
      exact ⟨clampInt pnV 1 1 9999, by rw [hf, h]⟩
    | ok first =>
      rw [hf] at h
      dsimp only at h
      cases hrest : fetchFrom urls net (clampInt pnV 1 1 9999 + 1)
          ((decidePagesToFetch
              (toInt (getPath first.2 ["response", "body", "totalCount"]) 0)
              (clampInt nrV 100 1 1000) (clampInt pnV 1 1 9999)
              (clampInt mpV 3 1 10)) - 1).toNat with
      | error e2 =>
        rw [hrest] at h
        simp only [Except.error.injEq] at h
        exact h ▸ fetchFrom_error_src urls net _ _ e2 hrest
      | ok rest => rw [hrest] at h; exact absurd h (by simp)
  · intro o u
    constructor
    · intro h1
      simp [fetchJsonUpstream, h1]
    · intro h1 h2
      simp [fetchJsonUpstream, h1, h2]

/-- Witness for C2 (amended): a first page failing with status 503
surfaces the 500 `"Proxy failed"` response carrying the upstream
status and body, with no items. -/
theorem upstreamFailure_spec_witness :
    handlerRun (fun _ => "https://apis.data.go.kr/x") (fun _ => ⟨false, 503, "oops", none⟩)
        (Json.str "bid") Json.undef Json.undef Json.undef Json.undef Json.undef =
      { status := 500, errorTag := some "Proxy failed",
        message := some "Upstream 503: oops", payload := none } :=
  (upstreamFailure_spec (fun _ => "https://apis.data.go.kr/x")
    (fun _ => ⟨false, 503, "oops", none⟩) (Json.str "bid")
    Json.undef Json.undef Json.undef Json.undef Json.undef
    "Upstream 503: oops" (by rfl)).1

/-- Counterexample to C2 as stated: for a failing upstream page the
handler surfaces status 500 — not a 502-class status — and the error
message carries only the upstream status and truncated body, not the
offending URL. -/
theorem upstreamFailure_cex :
    (handlerRun (fun _ => "https://apis.data.go.kr/x") (fun _ => ⟨false, 503, "oops", none⟩)
        (Json.str "bid") Json.undef Json.undef Json.undef Json.undef Json.undef).status = 500 ∧
    (handlerRun (fun _ => "https://apis.data.go.kr/x") (fun _ => ⟨false, 503, "oops", none⟩)
        (Json.str "bid") Json.undef Json.undef Json.undef Json.undef Json.undef).status ≠ 502 ∧
    (handlerRun (fun _ => "https://apis.data.go.kr/x") (fun _ => ⟨false, 503, "oops", none⟩)
        (Json.str "bid") Json.undef Json.undef Json.undef Json.undef Json.undef).message =
      some "Upstream 503: oops" ∧
    strIncludes "Upstream 503: oops" "https://apis.data.go.kr/x" = false ∧
    (handlerRun (fun _ => "https://apis.data.go.kr/x") (fun _ => ⟨false, 503, "oops", none⟩)
        (Json.str "bid") Json.undef Json.undef Json.undef Json.undef Json.undef).payload =
      none := by
  refine ⟨rfl, by decide, rfl, by decide, rfl⟩
